import Mathlib

/-!
Verification of the sahotsava-be authentication subsystem.

This file gives a shallow embedding of the Authentication Engine
(`src/services/auth.service.ts`, `AuthService`), the pieces of the user
service it relies on (`src/services/user.service.ts`, `getUserByEmail`),
and the resend-verification route handler
(`src/routes/auth/index.ts`), together with proofs about login, logout,
token refresh, email verification and verification-resend.

Modelling decisions, in order of appearance:
* The relational store is a list of `User` records; `prisma.user.findUnique`
  is first-match lookup, `prisma.user.update` updates the record with the
  given id and fails (prisma error P2025) when it is absent,
  `prisma.user.create` fails on a duplicate email (unique constraint).
* The Redis cache is an association list from string keys to `CVal` values.
  A `CVal` is either a plain string (tokens, user ids) or the JSON
  serialization of a user record, written `CVal.userJson u` — the
  constructor stands for the string `JSON.stringify(u)`, which is injective
  on records, so keeping the record itself is faithful.  TTL expiry is
  modelled by entry absence.
* Infrastructure health is two booleans `dbUp`/`cacheUp` on the state; a
  collaborator call made while the corresponding flag is `false` raises,
  which the embedding surfaces as `Except.error ()`.  Every service method
  wraps its body in try/catch exactly as the source does: an error caught
  mid-way returns the failure value together with the state reached so far
  (side effects already performed on the external systems persist).
* The JWT codec (`jsonwebtoken`, an external package) and the bcrypt
  password functions (whose bodies are absent from `src/lib/password.ts`,
  only stubs remain) are modelled from the spec as abstract function
  parameters; see `TokenCodec` below.
-/

/-- User roles, from the Prisma schema enum `ROLE`. -/
inductive ROLE where
  | SUPER_ADMIN
  | DOMAIN_LEAD
  | CAMPUS_AMBASSADOR
  | CHECKIN_CREW
deriving DecidableEq

/-- A user record, the fields of the `users` table that the authentication
subsystem reads or writes. -/
structure User where
  id : String
  uid : String
  p_email : String
  email : String
  name : String
  phone : Option String
  password : String
  role : ROLE
  is_verified : Bool
  verification_token : Option String
  campusId : Option String
deriving DecidableEq

/-- A value stored in the Redis cache: either a plain string (tokens,
user ids) or the JSON serialization of a user record
(`JSON.stringify(user)`, kept as the record itself since the
serialization is injective). -/
inductive CVal where
  | str (s : String)
  | userJson (u : User)
deriving DecidableEq

/-- The raw string content of a cached value, as `redis.get` returns it.
For a serialized user the placeholder is irrelevant: no writer ever puts
a serialized user under a key that is later read as a user id. -/
def CVal.asString : CVal → String
  | .str s => s
  | .userJson _ => "[object]"

/-- The world state the Authentication Engine acts on: the user table,
the cache contents, and the health of the two external collaborators. -/
structure St where
  users : List User
  cache : List (String × CVal)
  dbUp : Bool
  cacheUp : Bool
deriving DecidableEq

/-- Cache lookup (`redis.get`): value of the first entry with the key. -/
def redisGet (c : List (String × CVal)) (k : String) : Option CVal :=
  match c with
  | [] => none
  | p :: rest => if p.1 = k then some p.2 else redisGet rest k

/-- Cache key removal (`redis.del`): drop every entry with the key. -/
def redisDel (c : List (String × CVal)) (k : String) : List (String × CVal) :=
  match c with
  | [] => []
  | p :: rest => if p.1 = k then redisDel rest k else p :: redisDel rest k

/-- Cache write (`redis.set`): bind the key to the value, overwriting any
previous binding. -/
def redisSet (c : List (String × CVal)) (k : String) (v : CVal) :
    List (String × CVal) :=
  (k, v) :: redisDel c k

/-- `prisma.user.findUnique({ where: { email } })`. -/
def findUserByEmail (us : List User) (e : String) : Option User :=
  match us with
  | [] => none
  | u :: rest => if u.email = e then some u else findUserByEmail rest e

/-- `prisma.user.findUnique({ where: { id } })`. -/
def findUserById (us : List User) (i : String) : Option User :=
  match us with
  | [] => none
  | u :: rest => if u.id = i then some u else findUserById rest i

/-- `prisma.user.update({ where: { id } })`: rewrite the record with the
given id in place, or fail (prisma throws P2025) when it is absent. -/
def updateById (us : List User) (i : String) (f : User → User) :
    Option (User × List User) :=
  match us with
  | [] => none
  | u :: rest =>
    if u.id = i then some (f u, f u :: rest)
    else
      match updateById rest i f with
      | none => none
      | some (v, vs) => some (v, u :: vs)

/-- `redis.get` at the service boundary: raises when the cache is down. -/
def rGet (s : St) (k : String) : Except Unit (Option CVal) :=
  if s.cacheUp then .ok (redisGet s.cache k) else .error ()

/-- `redis.set` at the service boundary: raises when the cache is down. -/
def rSet (s : St) (k : String) (v : CVal) : Except Unit St :=
  if s.cacheUp then .ok { s with cache := redisSet s.cache k v } else .error ()

/-- `redis.del` at the service boundary: raises when the cache is down. -/
def rDel (s : St) (k : String) : Except Unit St :=
  if s.cacheUp then .ok { s with cache := redisDel s.cache k } else .error ()

/-- `prisma.user.findUnique` by email: raises when the store is down. -/
def dbFindByEmail (s : St) (e : String) : Except Unit (Option User) :=
  if s.dbUp then .ok (findUserByEmail s.users e) else .error ()

/-- `prisma.user.findUnique` by id: raises when the store is down. -/
def dbFindById (s : St) (i : String) : Except Unit (Option User) :=
  if s.dbUp then .ok (findUserById s.users i) else .error ()

/-- `prisma.user.update`: raises when the store is down or the id is
absent (P2025). -/
def dbUpdate (s : St) (i : String) (f : User → User) :
    Except Unit (User × St) :=
  if s.dbUp then
    match updateById s.users i f with
    | none => .error ()
    | some (v, us) => .ok (v, { s with users := us })
  else .error ()

/-- `prisma.user.create`: raises when the store is down or the email is
already taken (unique constraint). -/
def dbCreate (s : St) (u : User) : Except Unit St :=
  if s.dbUp then
    if s.users.any (fun x => x.email = u.email) then .error ()
    else .ok { s with users := s.users ++ [u] }
  else .error ()

-- The Token Codec and the password comparison

/-- Access-token claims: `{ id, email, role }` as minted by `login` and
`refreshAccessToken`. -/
structure AccessClaims where
  id : String
  email : String
  role : ROLE
deriving DecidableEq

/-- Refresh-token claims: `{ id, email }` as minted by `login`. -/
structure RefreshClaims where
  id : String
  email : String
deriving DecidableEq

/-- Modelled from the spec: the Token Codec (spec section 4.1).  The source
wrappers `generateToken`, `generateRefreshToken` and `verifyRefreshToken`
in `src/middlewares/auth.ts` delegate to the external `jsonwebtoken`
package, whose cryptographic core is not part of this repository, so the
codec is carried as an abstract record of its interface: signing the two
token classes (with their fixed TTLs of 24h and 30d folded in, as at the
call sites) and verification against the refresh secret, which returns
the embedded claims or `none` on bad signature, malformed structure or
expiry. -/
structure TokenCodec where
  generateToken : AccessClaims → String
  generateRefreshToken : RefreshClaims → String
  verifyRefreshToken : String → Option RefreshClaims

-- The Authentication Engine (`AuthService`)

/-- The success payload of `AuthService.login`. -/
structure LoginResult where
  user : User
  accessToken : String
  refreshToken : String
deriving DecidableEq

/-- `AuthService.login` (src/services/auth.service.ts).  `cmp` is the
bcrypt `compareHashedPassword`, modelled from the spec as an abstract
comparison since its body is absent from `src/lib/password.ts`.  The
outer try/catch of the source returns `null` on any collaborator error,
with whatever side effects already happened kept. -/
def login (codec : TokenCodec) (cmp : String → String → Bool) (s : St)
    (email password : String) : Option LoginResult × St :=
  match dbFindByEmail s email with
  | .error _ => (none, s)
  | .ok none => (none, s)
  | .ok (some user) =>
    if !user.is_verified then (none, s)
    else if !(cmp password user.password) then (none, s)
    else
      let accessToken := codec.generateToken
        { id := user.id, email := user.email, role := user.role }
      let refreshToken := codec.generateRefreshToken
        { id := user.id, email := user.email }
      match rSet s ("refresh_token:" ++ user.id) (.str refreshToken) with
      | .error _ => (none, s)
      | .ok s1 => (some { user, accessToken, refreshToken }, s1)

/-- `AuthService.refreshAccessToken`.  Rejects when the signature check
fails, when the cached value under `refresh_token:` + the embedded user
id is not exactly the presented token, or when the user is gone or
unverified; on the success path it performs no write at all. -/
def refreshAccessToken (codec : TokenCodec) (s : St) (refreshToken : String) :
    Option String × St :=
  match codec.verifyRefreshToken refreshToken with
  | none => (none, s)
  | some decoded =>
    match rGet s ("refresh_token:" ++ decoded.id) with
    | .error _ => (none, s)
    | .ok cachedToken =>
      if cachedToken ≠ some (.str refreshToken) then (none, s)
      else
        match dbFindById s decoded.id with
        | .error _ => (none, s)
        | .ok none => (none, s)
        | .ok (some user) =>
          if !user.is_verified then (none, s)
          else
            (some (codec.generateToken
              { id := user.id, email := user.email, role := user.role }), s)

/-- `AuthService.logout`: best-effort delete of the refresh-session key;
`false` only when the cache raises. -/
def logout (s : St) (userId : String) : Bool × St :=
  match rDel s ("refresh_token:" ++ userId) with
  | .error _ => (false, s)
  | .ok s1 => (true, s1)

/-- `AuthService.verifyEmail`.  The cached value is read as a raw string;
the JavaScript source rejects a falsy value, so the empty string is
rejected alongside an absent entry.  When the store update throws, the
catch returns `null` before the cache delete runs, so the token mapping
survives; when the delete itself throws, the store update has already
happened and survives. -/
def verifyEmail (s : St) (token : String) : Option User × St :=
  match rGet s ("verification:" ++ token) with
  | .error _ => (none, s)
  | .ok none => (none, s)
  | .ok (some v) =>
    if CVal.asString v = "" then (none, s)
    else
      match dbUpdate s (CVal.asString v)
          (fun u => { u with is_verified := true, verification_token := none }) with
      | .error _ => (none, s)
      | .ok (user, s1) =>
        match rDel s1 ("verification:" ++ token) with
        | .error _ => (none, s1)
        | .ok s2 => (some user, s2)

/-- `AuthService.getRolePrefix`.  The source switch has a `"USR_"` default
branch that is unreachable over the closed `ROLE` enum. -/
def rolePrefixOf : ROLE → String
  | .SUPER_ADMIN => "SA_"
  | .DOMAIN_LEAD => "DL_"
  | .CAMPUS_AMBASSADOR => "CA_"
  | .CHECKIN_CREW => "CC_"

/-- The row `AuthService.registerUser` hands to `prisma.user.create`.
`hashPw` stands for the bcrypt `hashPassword` (body absent from
`src/lib/password.ts`, modelled from the spec as an abstract one-way
hash); `freshId` is the id the store mints for the row, `uidSuffix` the
random part of `generateUID`, and `verificationToken` the 32-byte random
token from `generateVerificationToken` — all nondeterministic inputs
threaded in explicitly.  Every registration writes `is_verified: false`. -/
def mkRegisteredUser (hashPw : String → String)
    (freshId uidSuffix verificationToken : String)
    (email name : String) (phone : Option String) (role : ROLE)
    (password : String) (campusId : Option String) : User :=
  { id := freshId
    uid := rolePrefixOf role ++ uidSuffix
    p_email := email
    email := email
    name := name
    phone := phone
    password := hashPw password
    role := role
    is_verified := false
    verification_token := some verificationToken
    campusId := campusId }

/-- Body of `AuthService.registerUser`: create the row, then cache the
verification token against the created row's id (which is `freshId`). -/
def registerUser (hashPw : String → String)
    (freshId uidSuffix verificationToken : String) (s : St)
    (email name : String) (phone : Option String) (role : ROLE)
    (password : String) (campusId : Option String) : Option User × St :=
  match dbCreate s (mkRegisteredUser hashPw freshId uidSuffix
      verificationToken email name phone role password campusId) with
  | .error _ => (none, s)
  | .ok s1 =>
    match rSet s1 ("verification:" ++ verificationToken) (.str freshId) with
    | .error _ => (none, s1)
    | .ok s2 =>
      (some (mkRegisteredUser hashPw freshId uidSuffix
        verificationToken email name phone role password campusId), s2)

/-- `AuthService.generateNewVerificationToken`: persist a fresh token on
the user row, then cache `verification:` + token → user id.  The previous
outstanding token's cache entry is not touched. -/
def generateNewVerificationToken (freshToken : String) (s : St)
    (userId : String) : Option String × St :=
  match dbUpdate s userId
      (fun u => { u with verification_token := some freshToken }) with
  | .error _ => (none, s)
  | .ok (_, s1) =>
    match rSet s1 ("verification:" ++ freshToken) (.str userId) with
    | .error _ => (none, s1)
    | .ok s2 => (some freshToken, s2)

-- The user service lookup used by the resend-verification route

/-- The store-then-cache tail of `UserService.getUserByEmail`: look the
user up in the store and, when found, cache its JSON under
`user:email:` + email for an hour. -/
def getUserByEmailDb (s : St) (email : String) : Option User × St :=
  match dbFindByEmail s email with
  | .error _ => (none, s)
  | .ok none => (none, s)
  | .ok (some u) =>
    match rSet s ("user:email:" ++ email) (.userJson u) with
    | .error _ => (none, s)
    | .ok s1 => (some u, s1)

/-- `UserService.getUserByEmail`: cache-first lookup.  A truthy cached
value is `JSON.parse`d and returned without consulting the store — a
serialized user parses back to the record, any other non-empty string
makes the parse throw, which the catch turns into `null`; a falsy (empty)
cached value falls through to the store. -/
def getUserByEmail (s : St) (email : String) : Option User × St :=
  match rGet s ("user:email:" ++ email) with
  | .error _ => (none, s)
  | .ok (some (.userJson u)) => (some u, s)
  | .ok (some (.str j)) =>
    if j = "" then getUserByEmailDb s email else (none, s)
  | .ok none => getUserByEmailDb s email

-- The resend-verification route handler

/-- The JSON outcome of a route handler, as built by `api_response`. -/
inductive ApiOutcome where
  | ok (message : String) (status : Nat)
  | err (message : String) (status : Nat)
deriving DecidableEq

/-- The POST resend-verification handler of `createAuthRouter`
(src/routes/auth/index.ts).  `freshToken` is the random token a resend
would mint and `emailOk` the outcome of the external
`emailService.sendVerificationEmail`.  A missing email body field is the
empty string (JavaScript falsiness). -/
def resendVerification (freshToken : String) (emailOk : Bool) (s : St)
    (email : String) : ApiOutcome × St :=
  if email = "" then (.err "Email is required" 400, s)
  else
    match getUserByEmail s email with
    | (none, s1) => (.err "User not found" 404, s1)
    | (some user, s1) =>
      if user.is_verified then (.ok "Email already verified" 200, s1)
      else
        match generateNewVerificationToken freshToken s1 user.id with
        | (none, s2) => (.err "Failed to generate verification token" 500, s2)
        | (some _, s2) =>
          if emailOk then (.ok "Verification email sent successfully" 200, s2)
          else (.err "Failed to send verification email" 500, s2)


-- Concrete fixtures, used by the closed witnesses and counterexamples

/-- A concrete codec instance for witnesses: tokens are tagged ids, and
refresh verification recognises exactly the token minted for user u1. -/
def testCodec : TokenCodec where
  generateToken := fun c => "access." ++ c.id
  generateRefreshToken := fun c => "refresh." ++ c.id
  verifyRefreshToken := fun t =>
    if t = "refresh.u1" then some { id := "u1", email := "a@b" } else none

/-- A concrete password comparison for witnesses: the stored hash of `p`
is `"H" ++ p`. -/
def testCmp : String → String → Bool :=
  fun password hashed => hashed = "H" ++ password

/-- A verified campus ambassador. -/
def uAlice : User :=
  { id := "u1", uid := "CA_1", p_email := "a@b", email := "a@b",
    name := "Alice", phone := none, password := "Hpw",
    role := .CAMPUS_AMBASSADOR, is_verified := true,
    verification_token := none, campusId := none }

/-- An unverified campus ambassador with outstanding token T0. -/
def uBob : User :=
  { id := "u2", uid := "CA_2", p_email := "b@b", email := "b@b",
    name := "Bob", phone := none, password := "Hpw",
    role := .CAMPUS_AMBASSADOR, is_verified := false,
    verification_token := some "T0", campusId := none }

/-- An unverified campus ambassador with outstanding token T1. -/
def uCarol : User :=
  { id := "u3", uid := "CA_3", p_email := "c@b", email := "c@b",
    name := "Carol", phone := none, password := "Hpw",
    role := .CAMPUS_AMBASSADOR, is_verified := false,
    verification_token := some "T1", campusId := none }

/-- Carol after a successful email verification. -/
def uCarolVerified : User :=
  { uCarol with is_verified := true, verification_token := none }

/-- Healthy state with Alice logged-in material: her refresh session is
cached. -/
def refreshFixture : St :=
  { users := [uAlice], cache := [("refresh_token:u1", .str "refresh.u1")],
    dbUp := true, cacheUp := true }

/-- Healthy state with only the unverified Bob. -/
def unverifiedFixture : St :=
  { users := [uBob], cache := [], dbUp := true, cacheUp := true }

/-- Healthy state with only the verified Alice, empty cache. -/
def verifiedFixture : St :=
  { users := [uAlice], cache := [], dbUp := true, cacheUp := true }

/-- State after Alice's login in `verifiedFixture`. -/
def verifiedFixtureAfter : St :=
  { users := [uAlice], cache := [("refresh_token:u1", .str "refresh.u1")],
    dbUp := true, cacheUp := true }

/-- Healthy state with unverified Carol and her outstanding token T1. -/
def verifyFixture : St :=
  { users := [uCarol], cache := [("verification:T1", .str "u3")],
    dbUp := true, cacheUp := true }

/-- State after a successful VerifyEmail("T1") in `verifyFixture`. -/
def verifyFixtureAfter : St :=
  { users := [uCarolVerified], cache := [], dbUp := true, cacheUp := true }

/-- Healthy state whose verification entry points at a user id that is
not in the store. -/
def ghostFixture : St :=
  { users := [], cache := [("verification:T1", .str "ughost")],
    dbUp := true, cacheUp := true }

/-- Verified Alice, healthy store, but the cache is unreachable. -/
def cacheDownFixture : St :=
  { users := [uAlice], cache := [], dbUp := true, cacheUp := false }
-- Basic cache lemmas

theorem redisGet_set_self (c : List (String × CVal)) (k : String) (v : CVal) :
    redisGet (redisSet c k v) k = some v := by
  simp [redisSet, redisGet]

theorem redisGet_del_self (c : List (String × CVal)) (k : String) :
    redisGet (redisDel c k) k = none := by
  induction c with
  | nil => rfl
  | cons p rest ih =>
    by_cases h : p.1 = k
    · simp [redisDel, h, ih]
    · simp [redisDel, redisGet, h, ih]

theorem redisGet_del_other (c : List (String × CVal)) (k k' : String)
    (h : k' ≠ k) : redisGet (redisDel c k) k' = redisGet c k' := by
  induction c with
  | nil => rfl
  | cons p rest ih =>
    by_cases hp : p.1 = k
    · have hk : ¬ k = k' := fun e => h e.symm
      simp [redisDel, redisGet, hp, hk, ih]
    · by_cases hp' : p.1 = k'
      · simp [redisDel, redisGet, hp, hp', h]
      · simp [redisDel, redisGet, hp, hp', ih]

theorem redisGet_set_other (c : List (String × CVal)) (k k' : String)
    (v : CVal) (h : k' ≠ k) :
    redisGet (redisSet c k v) k' = redisGet c k' := by
  have hk : ¬ k = k' := fun hk => h hk.symm
  simp [redisSet, redisGet, hk, redisGet_del_other c k k' h]

-- Basic store lemmas

theorem updateById_shape (us : List User) (i : String) (f : User → User)
    (v : User) (us' : List User) (h : updateById us i f = some (v, us')) :
    ∃ x, findUserById us i = some x ∧ v = f x ∧ x.id = i := by
  induction us generalizing us' with
  | nil => simp [updateById] at h
  | cons u rest ih =>
    by_cases hu : u.id = i
    · simp [updateById, hu] at h
      exact ⟨u, by simp [findUserById, hu], h.1.symm, hu⟩
    · simp only [updateById, hu, if_false] at h
      cases hrec : updateById rest i f with
      | none => rw [hrec] at h; simp at h
      | some p =>
        rw [hrec] at h
        obtain ⟨w, ws⟩ := p
        simp at h
        obtain ⟨x, hx1, hx2, hx3⟩ := ih ws (by rw [hrec, h.1])
        exact ⟨x, by simp [findUserById, hu, hx1], hx2, hx3⟩

theorem updateById_find (us : List User) (i : String) (f : User → User)
    (hf : ∀ y, (f y).id = y.id) (v : User) (us' : List User)
    (h : updateById us i f = some (v, us')) :
    findUserById us' i = some v := by
  induction us generalizing us' with
  | nil => simp [updateById] at h
  | cons u rest ih =>
    by_cases hu : u.id = i
    · simp [updateById, hu] at h
      rw [← h.2, ← h.1]
      simp [findUserById, hf u, hu]
    · simp only [updateById, hu, if_false] at h
      cases hrec : updateById rest i f with
      | none => rw [hrec] at h; simp at h
      | some p =>
        rw [hrec] at h
        obtain ⟨w, ws⟩ := p
        simp at h
        have := ih ws (by rw [hrec, h.1])
        rw [← h.2]
        simp [findUserById, hu, this]

theorem updateById_none (us : List User) (i : String) (f : User → User)
    (h : findUserById us i = none) : updateById us i f = none := by
  induction us with
  | nil => rfl
  | cons u rest ih =>
    by_cases hu : u.id = i
    · simp [findUserById, hu] at h
    · simp only [findUserById, hu, if_false] at h
      simp [updateById, hu, ih h]

theorem updateById_of_find (us : List User) (i : String) (f : User → User)
    (x : User) (h : findUserById us i = some x) :
    ∃ us', updateById us i f = some (f x, us') := by
  induction us with
  | nil => simp [findUserById] at h
  | cons u rest ih =>
    by_cases hu : u.id = i
    · simp [findUserById, hu] at h
      subst h
      exact ⟨f u :: rest, by simp [updateById, hu]⟩
    · simp only [findUserById, hu, if_false] at h
      obtain ⟨us', hus'⟩ := ih h
      exact ⟨u :: us', by simp [updateById, hu, hus']⟩

/-- Reachable trace, step 0: unverified Bob with outstanding token T0,
as registration leaves him. -/
def resendTraceS0 : St :=
  { users := [uBob], cache := [("verification:T0", .str "u2")],
    dbUp := true, cacheUp := true }

/-- Reachable trace, step 1: state after a first resend minting T1 — the
lookup has cached Bob's (unverified) record under his email key. -/
def resendTraceS1 : St := (resendVerification "T1" true resendTraceS0 "b@b").2

/-- Reachable trace, step 2: state after Bob successfully verifies with
T1 — the store record is verified but the email-lookup cache entry is
stale-unverified. -/
def resendTraceS2 : St := (verifyEmail resendTraceS1 "T1").2

-- String key lemmas

theorem string_append_cancel_left (a b c : String) (h : a ++ b = a ++ c) :
    b = c := by
  obtain ⟨ad⟩ := a
  obtain ⟨bd⟩ := b
  obtain ⟨cd⟩ := c
  have h2 : ad ++ bd = ad ++ cd := congrArg String.data h
  exact congrArg String.mk (List.append_cancel_left h2)

-- Success-shape lemmas: what a non-null result of each operation forces

theorem login_success_shape (codec : TokenCodec)
    (cmp : String → String → Bool) (s : St) (email password : String)
    (r : LoginResult) (s' : St)
    (h : login codec cmp s email password = (some r, s')) :
    findUserByEmail s.users email = some r.user ∧
    r.user.is_verified = true ∧
    cmp password r.user.password = true ∧
    s.dbUp = true ∧ s.cacheUp = true ∧
    r.accessToken = codec.generateToken { id := r.user.id, email := r.user.email, role := r.user.role } ∧
    r.refreshToken = codec.generateRefreshToken { id := r.user.id, email := r.user.email } ∧
    s' = { s with cache := redisSet s.cache ("refresh_token:" ++ r.user.id) (.str r.refreshToken) } := by
  cases hd : s.dbUp with
  | false => simp [login, dbFindByEmail, hd] at h
  | true =>
  cases hu : findUserByEmail s.users email with
  | none => simp [login, dbFindByEmail, hd, hu] at h
  | some user =>
  cases hv : user.is_verified with
  | false => simp [login, dbFindByEmail, hd, hu, hv] at h
  | true =>
  cases hp : cmp password user.password with
  | false => simp [login, dbFindByEmail, hd, hu, hv, hp] at h
  | true =>
  cases hc : s.cacheUp with
  | false => simp [login, dbFindByEmail, hd, hu, hv, hp, rSet, hc] at h
  | true =>
    have hcomp : login codec cmp s email password =
        (some { user := user, accessToken := codec.generateToken { id := user.id, email := user.email, role := user.role }, refreshToken := codec.generateRefreshToken { id := user.id, email := user.email } },
         { s with cache := redisSet s.cache ("refresh_token:" ++ user.id) (.str (codec.generateRefreshToken { id := user.id, email := user.email })) }) := by
      simp [login, dbFindByEmail, hd, hu, hv, hp, rSet, hc]
    rw [hcomp] at h
    rw [Prod.mk.injEq] at h
    obtain ⟨h1, h2⟩ := h
    have h1' := Option.some.inj h1
    subst h1'
    subst h2
    simp [hd, hc, hv, hp]

theorem verifyEmail_success_shape (s : St) (t : String) (u : User) (s' : St)
    (h : verifyEmail s t = (some u, s')) :
    ∃ v us1, redisGet s.cache ("verification:" ++ t) = some v ∧
      s.cacheUp = true ∧ s.dbUp = true ∧
      updateById s.users (CVal.asString v)
        (fun x => { x with is_verified := true, verification_token := none })
        = some (u, us1) ∧
      s' = { s with users := us1, cache := redisDel s.cache ("verification:" ++ t) } := by
  cases hc : s.cacheUp with
  | false => simp [verifyEmail, rGet, hc] at h
  | true =>
  cases hv : redisGet s.cache ("verification:" ++ t) with
  | none => simp [verifyEmail, rGet, hc, hv] at h
  | some v =>
  by_cases hvs : CVal.asString v = ""
  · simp [verifyEmail, rGet, hc, hv, hvs] at h
  · cases hd : s.dbUp with
    | false => simp [verifyEmail, rGet, hc, hv, hvs, dbUpdate, hd] at h
    | true =>
    cases hupd : updateById s.users (CVal.asString v)
        (fun x => { x with is_verified := true, verification_token := none }) with
    | none => simp [verifyEmail, rGet, hc, hv, hvs, dbUpdate, hd, hupd] at h
    | some p =>
      obtain ⟨w, us1⟩ := p
      have hcomp : verifyEmail s t =
          (some w, { s with users := us1, cache := redisDel s.cache ("verification:" ++ t) }) := by
        simp [verifyEmail, rGet, hc, hv, hvs, dbUpdate, hd, hupd, rDel]
      rw [hcomp] at h
      rw [Prod.mk.injEq] at h
      obtain ⟨h1, h2⟩ := h
      have h1' := Option.some.inj h1
      subst h1'
      subst h2
      exact ⟨v, us1, rfl, rfl, rfl, hupd, by simp [hd, hc]⟩

theorem genNewToken_success_shape (ft : String) (s : St) (uid tok : String)
    (s' : St) (h : generateNewVerificationToken ft s uid = (some tok, s')) :
    tok = ft ∧ s.dbUp = true ∧ s.cacheUp = true ∧
    ∃ w us1,
      updateById s.users uid
        (fun x => { x with verification_token := some ft }) = some (w, us1) ∧
      s' = { s with users := us1, cache := redisSet s.cache ("verification:" ++ ft) (.str uid) } := by
  cases hd : s.dbUp with
  | false => simp [generateNewVerificationToken, dbUpdate, hd] at h
  | true =>
  cases hupd : updateById s.users uid
      (fun x => { x with verification_token := some ft }) with
  | none => simp [generateNewVerificationToken, dbUpdate, hd, hupd] at h
  | some p =>
    obtain ⟨w, us1⟩ := p
    cases hc : s.cacheUp with
    | false =>
      simp [generateNewVerificationToken, dbUpdate, hd, hupd, rSet, hc] at h
    | true =>
      have hcomp : generateNewVerificationToken ft s uid =
          (some ft, { s with users := us1, cache := redisSet s.cache ("verification:" ++ ft) (.str uid) }) := by
        simp [generateNewVerificationToken, dbUpdate, hd, hupd, rSet, hc]
      rw [hcomp] at h
      rw [Prod.mk.injEq] at h
      obtain ⟨h1, h2⟩ := h
      subst h2
      exact ⟨(Option.some.inj h1).symm, rfl, rfl, w, us1, rfl, by simp [hd, hc]⟩

theorem dbCreate_ok_shape (s : St) (u : User) (s1 : St)
    (h : dbCreate s u = .ok s1) :
    s.dbUp = true ∧ s1 = { s with users := s.users ++ [u] } := by
  cases hd : s.dbUp with
  | false => simp [dbCreate, hd] at h
  | true =>
    cases hdup : s.users.any (fun x => x.email = u.email) with
    | true => simp [dbCreate, hd, hdup] at h
    | false =>
      simp [dbCreate, hd, hdup] at h
      exact ⟨rfl, h.symm⟩

theorem registerUser_success_shape (hashPw : String → String)
    (fid usuf vtok : String) (s : St) (email name : String)
    (phone : Option String) (role : ROLE) (password : String)
    (campusId : Option String) (u : User) (s' : St)
    (h : registerUser hashPw fid usuf vtok s email name phone role password campusId = (some u, s')) :
    u = mkRegisteredUser hashPw fid usuf vtok email name phone role password campusId ∧
    s.dbUp = true ∧ s.cacheUp = true ∧
    s' = { s with users := s.users ++ [u], cache := redisSet s.cache ("verification:" ++ vtok) (.str fid) } := by
  cases hcr : dbCreate s (mkRegisteredUser hashPw fid usuf vtok email name phone role password campusId) with
  | error e => simp [registerUser, hcr] at h
  | ok s1 =>
    obtain ⟨hd, hs1⟩ := dbCreate_ok_shape _ _ _ hcr
    subst hs1
    cases hc : s.cacheUp with
    | false => simp [registerUser, hcr, rSet, hc] at h
    | true =>
      have hcomp : registerUser hashPw fid usuf vtok s email name phone role password campusId =
          (some (mkRegisteredUser hashPw fid usuf vtok email name phone role password campusId),
           { s with users := s.users ++ [mkRegisteredUser hashPw fid usuf vtok email name phone role password campusId], cache := redisSet s.cache ("verification:" ++ vtok) (.str fid) }) := by
        simp [registerUser, hcr, rSet, hc]
      rw [hcomp] at h
      rw [Prod.mk.injEq] at h
      obtain ⟨h1, h2⟩ := h
      have h1' := Option.some.inj h1
      subst h1'
      subst h2
      simp [hd, hc]

theorem logout_success_shape (s : St) (uid : String) (s' : St)
    (h : logout s uid = (true, s')) :
    s.cacheUp = true ∧
    s' = { s with cache := redisDel s.cache ("refresh_token:" ++ uid) } := by
  cases hc : s.cacheUp with
  | false => simp [logout, rDel, hc] at h
  | true =>
    simp [logout, rDel, hc] at h
    exact ⟨rfl, h.symm⟩

theorem refreshAccessToken_no_write (codec : TokenCodec) (s : St)
    (t : String) : (refreshAccessToken codec s t).2 = s := by
  unfold refreshAccessToken
  repeat' first | rfl | split

-- Claim theorems

/-- C1: `refreshAccessToken` returns a new access token if and only if
the presented token decodes under the refresh secret, the cached value
under the refresh-session key of the embedded user id is exactly equal to
the presented token, and that user still exists in the store and is
verified; and in every case — success included — the refresh token is not
rotated and the state, cache entry included, is left unchanged. -/
theorem refreshAccessToken_spec (codec : TokenCodec) (s : St) (t : String)
    (hc : s.cacheUp = true) (hd : s.dbUp = true) :
    ((refreshAccessToken codec s t).1.isSome = true ↔
      ∃ d u, codec.verifyRefreshToken t = some d ∧
        redisGet s.cache ("refresh_token:" ++ d.id) = some (.str t) ∧
        findUserById s.users d.id = some u ∧ u.is_verified = true) ∧
    (refreshAccessToken codec s t).2 = s := by
  refine ⟨⟨?_, ?_⟩, refreshAccessToken_no_write codec s t⟩
  · intro h
    cases hv : codec.verifyRefreshToken t with
    | none => simp [refreshAccessToken, hv] at h
    | some d =>
      by_cases hg : redisGet s.cache ("refresh_token:" ++ d.id) = some (.str t)
      · cases hf : findUserById s.users d.id with
        | none =>
          simp [refreshAccessToken, hv, rGet, hc, hg, dbFindById, hd, hf] at h
        | some u =>
          cases hu : u.is_verified with
          | false =>
            simp [refreshAccessToken, hv, rGet, hc, hg, dbFindById, hd, hf,
              hu] at h
          | true => exact ⟨d, u, rfl, hg, hf, hu⟩
      · simp [refreshAccessToken, hv, rGet, hc, hg] at h
  · rintro ⟨d, u, hv, hg, hf, hu⟩
    simp [refreshAccessToken, hv, rGet, hc, hg, dbFindById, hd, hf, hu]

/-- Witness for C1: in a healthy concrete state holding Alice's cached
session, the refresh succeeds and the state is untouched. -/
theorem refreshAccessToken_spec_witness :
    (refreshAccessToken testCodec refreshFixture "refresh.u1").1.isSome
      = true ∧
    (refreshAccessToken testCodec refreshFixture "refresh.u1").2
      = refreshFixture := by
  have h := refreshAccessToken_spec testCodec refreshFixture "refresh.u1"
    (by decide) (by decide)
  exact ⟨h.1.mpr ⟨{ id := "u1", email := "a@b" }, uAlice, by decide,
    by decide, by decide, by decide⟩, h.2⟩

/-- C2: for an unverified account, login rejects with the same generic
null outcome as a nonexistent email or a wrong password, whatever the
presented password is. -/
theorem login_unverified_generic_reject (codec : TokenCodec)
    (cmp : String → String → Bool) (s : St) (password : String)
    (hd : s.dbUp = true) :
    (∀ email u, findUserByEmail s.users email = some u →
      u.is_verified = false → login codec cmp s email password = (none, s)) ∧
    (∀ email, findUserByEmail s.users email = none →
      login codec cmp s email password = (none, s)) ∧
    (∀ email u, findUserByEmail s.users email = some u →
      u.is_verified = true → cmp password u.password = false →
      login codec cmp s email password = (none, s)) := by
  refine ⟨?_, ?_, ?_⟩
  · intro email u hu hv
    simp [login, dbFindByEmail, hd, hu, hv]
  · intro email hu
    simp [login, dbFindByEmail, hd, hu]
  · intro email u hu hv hp
    simp [login, dbFindByEmail, hd, hu, hv, hp]

/-- Witness for C2: the unverified Bob is rejected even with the correct
password. -/
theorem login_unverified_generic_reject_witness :
    login testCodec testCmp unverifiedFixture "b@b" "pw"
      = (none, unverifiedFixture) :=
  (login_unverified_generic_reject testCodec testCmp unverifiedFixture "pw"
    (by decide)).1 "b@b" uBob (by decide) (by decide)

/-- C3: for a verified user with a matching password, login succeeds,
returns the user together with both minted tokens, and overwrites the
cache entry under the user's refresh-session key with exactly the
returned refresh-token string. -/
theorem login_success_caches_refresh (codec : TokenCodec)
    (cmp : String → String → Bool) (s : St) (email password : String)
    (u : User) (hd : s.dbUp = true) (hc : s.cacheUp = true)
    (hu : findUserByEmail s.users email = some u)
    (hv : u.is_verified = true)
    (hp : cmp password u.password = true) :
    login codec cmp s email password =
      (some { user := u, accessToken := codec.generateToken { id := u.id, email := u.email, role := u.role }, refreshToken := codec.generateRefreshToken { id := u.id, email := u.email } },
       { s with cache := redisSet s.cache ("refresh_token:" ++ u.id) (.str (codec.generateRefreshToken { id := u.id, email := u.email })) }) ∧
    redisGet (redisSet s.cache ("refresh_token:" ++ u.id) (.str (codec.generateRefreshToken { id := u.id, email := u.email }))) ("refresh_token:" ++ u.id) = some (.str (codec.generateRefreshToken { id := u.id, email := u.email })) :=
  ⟨by simp [login, dbFindByEmail, hd, hu, hv, hp, rSet, hc],
   redisGet_set_self _ _ _⟩

/-- Witness for C3: Alice's login at a concrete state, with the cache
entry equal to the returned token. -/
theorem login_success_caches_refresh_witness :
    login testCodec testCmp verifiedFixture "a@b" "pw" =
      (some { user := uAlice, accessToken := "access.u1", refreshToken := "refresh.u1" }, verifiedFixtureAfter) ∧
    redisGet verifiedFixtureAfter.cache "refresh_token:u1"
      = some (.str "refresh.u1") := by
  have h := login_success_caches_refresh testCodec testCmp verifiedFixture
    "a@b" "pw" uAlice (by decide) (by decide) (by decide) (by decide)
    (by decide)
  exact h

/-- C4: a successful VerifyEmail consumes the token — a second call with
the same token is rejected and leaves the state alone — while the
verified flag set by the first call persists in the store. -/
theorem verifyEmail_at_most_once (s : St) (t : String) (u : User) (s' : St)
    (h : verifyEmail s t = (some u, s')) :
    verifyEmail s' t = (none, s') ∧ u.is_verified = true ∧
    findUserById s'.users u.id = some u := by
  obtain ⟨v, us1, hv, hc, hd, hupd, hs'⟩ := verifyEmail_success_shape s t u s' h
  obtain ⟨x, hx1, hx2, hx3⟩ := updateById_shape _ _ _ _ _ hupd
  have hfind := updateById_find s.users (CVal.asString v)
    (fun x => { x with is_verified := true, verification_token := none })
    (fun y => rfl) u us1 hupd
  subst hs'
  refine ⟨by simp [verifyEmail, rGet, hc, redisGet_del_self], ?_, ?_⟩
  · rw [hx2]
  · have hid : u.id = CVal.asString v := by rw [hx2]; exact hx3
    rw [hid]
    exact hfind

/-- C5 counterexample: in a concrete healthy state where Carol's token T1
is outstanding, a resend issues T2, yet VerifyEmail with the previous
unexpired token T1 still succeeds afterwards — the claim that the resend
invalidates the previous mapping fails on the code. -/
theorem resend_leaves_old_token_valid_cex :
    (generateNewVerificationToken "T2" verifyFixture "u3").1 = some "T2" ∧
    (verifyEmail (generateNewVerificationToken "T2" verifyFixture "u3").2
      "T1").1.isSome = true := by
  decide

/-- C5 amended: consuming a token by a successful VerifyEmail deletes its
cache mapping immediately (single-use holds), but issuing a new token via
ResendVerification does NOT invalidate the previous outstanding mapping:
after a resend with a fresh distinct token, the previous token's cache
entry — and hence its validity — survives untouched. -/
theorem resend_keeps_previous_mapping (s : St) (uid t1 t2 : String)
    (v1 : CVal)
    (hold : redisGet s.cache ("verification:" ++ t1) = some v1)
    (hne : t1 ≠ t2) :
    (∀ s', generateNewVerificationToken t2 s uid = (some t2, s') →
      redisGet s'.cache ("verification:" ++ t1) = some v1) ∧
    (∀ sa tok ua sa', verifyEmail sa tok = (some ua, sa') →
      redisGet sa'.cache ("verification:" ++ tok) = none) := by
  constructor
  · intro s' h
    obtain ⟨-, hd, hc, w, us1, hupd, hs'⟩ :=
      genNewToken_success_shape t2 s uid t2 s' h
    subst hs'
    have hkey : ("verification:" ++ t1) ≠ ("verification:" ++ t2) :=
      fun hk => hne (string_append_cancel_left _ _ _ hk)
    simpa [redisGet_set_other _ _ _ _ hkey] using hold
  · intro sa tok ua sa' h
    obtain ⟨v, us1, hv, hc, hd, hupd, hs'⟩ :=
      verifyEmail_success_shape sa tok ua sa' h
    subst hs'
    simp [redisGet_del_self]

/-- Witness for the amended C5: at the concrete fixture the resend of T2
leaves T1's mapping in place. -/
theorem resend_keeps_previous_mapping_witness :
    redisGet (generateNewVerificationToken "T2" verifyFixture "u3").2.cache
      ("verification:" ++ "T1") = some (.str "u3") :=
  (resend_keeps_previous_mapping verifyFixture "u3" "T1" "T2" (.str "u3")
    (by decide) (by decide)).1
    (generateNewVerificationToken "T2" verifyFixture "u3").2 (by decide)

/-- C6 counterexample: a successful login stores the session under
`refresh_token:` + userId, not under `refresh:` + userId as the stated
convention requires — the `refresh:` key stays empty. -/
theorem refresh_key_convention_cex :
    (login testCodec testCmp verifiedFixture "a@b" "pw").1.isSome = true ∧
    redisGet (login testCodec testCmp verifiedFixture "a@b" "pw").2.cache
      ("refresh:" ++ "u1") = none ∧
    redisGet (login testCodec testCmp verifiedFixture "a@b" "pw").2.cache
      ("refresh_token:" ++ "u1") = some (.str "refresh.u1") := by
  decide

/-- C6 amended: the key-naming convention the engine actually follows:
refresh sessions live under `refresh_token:` + userId (written by login,
deleted by logout), pending verifications under `verification:` + token
(written by registration and resend, deleted by a successful
verification), and token refresh writes nothing at all. -/
theorem cache_key_convention (codec : TokenCodec)
    (cmp : String → String → Bool) :
    (∀ s email password r s',
      login codec cmp s email password = (some r, s') →
      s'.cache = redisSet s.cache ("refresh_token:" ++ r.user.id)
        (.str r.refreshToken)) ∧
    (∀ s uid s', logout s uid = (true, s') →
      s'.cache = redisDel s.cache ("refresh_token:" ++ uid)) ∧
    (∀ s t u s', verifyEmail s t = (some u, s') →
      s'.cache = redisDel s.cache ("verification:" ++ t)) ∧
    (∀ ft s uid tok s',
      generateNewVerificationToken ft s uid = (some tok, s') →
      s'.cache = redisSet s.cache ("verification:" ++ ft) (.str uid)) ∧
    (∀ hashPw fid usuf vtok s email name phone role password campusId u s',
      registerUser hashPw fid usuf vtok s email name phone role password
        campusId = (some u, s') →
      s'.cache = redisSet s.cache ("verification:" ++ vtok) (.str fid)) ∧
    (∀ s t, (refreshAccessToken codec s t).2 = s) := by
  refine ⟨?_, ?_, ?_, ?_, ?_, ?_⟩
  · intro s email password r s' h
    obtain ⟨-, -, -, -, -, -, -, hs'⟩ :=
      login_success_shape codec cmp s email password r s' h
    subst hs'
    rfl
  · intro s uid s' h
    obtain ⟨-, hs'⟩ := logout_success_shape s uid s' h
    subst hs'
    rfl
  · intro s t u s' h
    obtain ⟨v, us1, -, -, -, -, hs'⟩ := verifyEmail_success_shape s t u s' h
    subst hs'
    rfl
  · intro ft s uid tok s' h
    obtain ⟨-, -, -, w, us1, -, hs'⟩ :=
      genNewToken_success_shape ft s uid tok s' h
    subst hs'
    rfl
  · intro hashPw fid usuf vtok s email name phone role password campusId
      u s' h
    obtain ⟨-, -, -, hs'⟩ := registerUser_success_shape hashPw fid usuf
      vtok s email name phone role password campusId u s' h
    subst hs'
    rfl
  · intro s t
    exact refreshAccessToken_no_write codec s t

/-- Witness for the amended C6: Alice's logout at the concrete fixture
deletes exactly the `refresh_token:` session key. -/
theorem cache_key_convention_witness :
    (logout refreshFixture "u1").2.cache =
      redisDel refreshFixture.cache ("refresh_token:" ++ "u1") :=
  (cache_key_convention testCodec testCmp).2.1 refreshFixture "u1"
    (logout refreshFixture "u1").2 (by decide)

/-- C7 counterexample: with the cache unreachable and the store healthy,
login with the CORRECT password of the verified Alice returns the very
same generic null rejection, and same state, as login with a wrong
password — the infrastructure failure is folded into the generic
Rejected outcome instead of surfacing as a distinct error. -/
theorem infra_error_folded_cex :
    login testCodec testCmp cacheDownFixture "a@b" "pw"
      = (none, cacheDownFixture) ∧
    login testCodec testCmp cacheDownFixture "a@b" "wrong"
      = (none, cacheDownFixture) := by
  decide

/-- C7 amended: collaborator failures do not surface distinctly: each
operation catches them and returns its ordinary rejection value — null
for login even with valid verified credentials, null for refresh even
when the token decodes, false for logout. -/
theorem infra_error_folded (codec : TokenCodec)
    (cmp : String → String → Bool) (s : St) (email password : String)
    (u : User) (hd : s.dbUp = true) (hcDown : s.cacheUp = false)
    (hu : findUserByEmail s.users email = some u)
    (hv : u.is_verified = true) (hp : cmp password u.password = true) :
    login codec cmp s email password = (none, s) ∧
    (∀ t d, codec.verifyRefreshToken t = some d →
      refreshAccessToken codec s t = (none, s)) ∧
    (∀ uid, logout s uid = (false, s)) := by
  refine ⟨?_, ?_, ?_⟩
  · simp [login, dbFindByEmail, hd, hu, hv, hp, rSet, hcDown]
  · intro t d hvt
    simp [refreshAccessToken, hvt, rGet, hcDown]
  · intro uid
    simp [logout, rDel, hcDown]

/-- Witness for the amended C7 at the concrete cache-down fixture. -/
theorem infra_error_folded_witness :
    login testCodec testCmp cacheDownFixture "a@b" "pw"
      = (none, cacheDownFixture) :=
  (infra_error_folded testCodec testCmp cacheDownFixture "a@b" "pw" uAlice
    (by decide) (by decide) (by decide) (by decide) (by decide)).1

/-- C8 counterexample: `registerUser` creates a SUPER_ADMIN with
`is_verified = false`, refuting the claim that privileged roles are
verified at creation time on this path. -/
theorem registerUser_superadmin_unverified_cex :
    ((registerUser (fun p => "H" ++ p) "u9" "X1" "VT9" verifiedFixture
      "sa@x" "Sam" none ROLE.SUPER_ADMIN "pw" none).1.map
        User.is_verified) = some false := by
  decide

/-- C8 amended: every user created through `registerUser` starts
unverified with a pending verification token cached against its id,
regardless of role — privileged roles are not pre-verified by this path
(pre-verification of seeded users happens in the out-of-core CSV seeding
utility, which writes the store directly). -/
theorem registerUser_always_unverified (hashPw : String → String)
    (fid usuf vtok : String) (s : St) (email name : String)
    (phone : Option String) (role : ROLE) (password : String)
    (campusId : Option String) (u : User) (s' : St)
    (h : registerUser hashPw fid usuf vtok s email name phone role password
      campusId = (some u, s')) :
    u.is_verified = false ∧ u.role = role ∧
    u.verification_token = some vtok ∧
    redisGet s'.cache ("verification:" ++ vtok) = some (.str fid) := by
  obtain ⟨hu, hd, hc, hs'⟩ := registerUser_success_shape hashPw fid usuf
    vtok s email name phone role password campusId u s' h
  subst hu
  subst hs'
  exact ⟨rfl, rfl, rfl, by simp [redisGet_set_self]⟩

/-- Witness for the amended C8 at a concrete SUPER_ADMIN registration. -/
theorem registerUser_always_unverified_witness :
    (mkRegisteredUser (fun p => "H" ++ p) "u9" "X1" "VT9" "sa@x" "Sam"
      none ROLE.SUPER_ADMIN "pw" none).is_verified = false ∧
    (mkRegisteredUser (fun p => "H" ++ p) "u9" "X1" "VT9" "sa@x" "Sam"
      none ROLE.SUPER_ADMIN "pw" none).role = ROLE.SUPER_ADMIN ∧
    (mkRegisteredUser (fun p => "H" ++ p) "u9" "X1" "VT9" "sa@x" "Sam"
      none ROLE.SUPER_ADMIN "pw" none).verification_token = some "VT9" ∧
    redisGet (registerUser (fun p => "H" ++ p) "u9" "X1" "VT9"
      verifiedFixture "sa@x" "Sam" none ROLE.SUPER_ADMIN "pw"
      none).2.cache ("verification:" ++ "VT9") = some (.str "u9") :=
  registerUser_always_unverified (fun p => "H" ++ p) "u9" "X1" "VT9"
    verifiedFixture "sa@x" "Sam" none ROLE.SUPER_ADMIN "pw" none
    (mkRegisteredUser (fun p => "H" ++ p) "u9" "X1" "VT9" "sa@x" "Sam"
      none ROLE.SUPER_ADMIN "pw" none)
    (registerUser (fun p => "H" ++ p) "u9" "X1" "VT9" verifiedFixture
      "sa@x" "Sam" none ROLE.SUPER_ADMIN "pw" none).2 (by decide)

-- Remaining helper lemmas for the resend-verification handler

theorem verification_key_ne_user_key (t e : String) :
    ("verification:" ++ t) ≠ ("user:email:" ++ e) := by
  intro h
  obtain ⟨td⟩ := t
  obtain ⟨ed⟩ := e
  have h2 : 'v' :: ("erification:".data ++ td)
      = 'u' :: ("ser:email:".data ++ ed) := congrArg String.data h
  injection h2 with h3 h4
  exact absurd h3 (by decide)

theorem getUserByEmailDb_shape (s : St) (email : String) (u : User)
    (s1 : St) (h : getUserByEmailDb s email = (some u, s1)) :
    s1.users = s.users ∧
    s1 = { s with cache := redisSet s.cache ("user:email:" ++ email) (.userJson u) } := by
  cases hd : s.dbUp with
  | false => simp [getUserByEmailDb, dbFindByEmail, hd] at h
  | true =>
  cases hf : findUserByEmail s.users email with
  | none => simp [getUserByEmailDb, dbFindByEmail, hd, hf] at h
  | some w =>
    cases hc : s.cacheUp with
    | false => simp [getUserByEmailDb, dbFindByEmail, hd, hf, rSet, hc] at h
    | true =>
      have hcomp : getUserByEmailDb s email =
          (some w, { s with cache := redisSet s.cache ("user:email:" ++ email) (.userJson w) }) := by
        simp [getUserByEmailDb, dbFindByEmail, hd, hf, rSet, hc]
      rw [hcomp] at h
      rw [Prod.mk.injEq] at h
      obtain ⟨h1, h2⟩ := h
      have h1' := Option.some.inj h1
      subst h1'
      subst h2
      exact ⟨rfl, by simp [hd, hc]⟩

theorem getUserByEmail_shape (s : St) (email : String) (u : User) (s1 : St)
    (h : getUserByEmail s email = (some u, s1)) :
    s1.users = s.users ∧
    (s1 = s ∨
      s1 = { s with cache := redisSet s.cache ("user:email:" ++ email) (.userJson u) }) := by
  cases hc : s.cacheUp with
  | false => simp [getUserByEmail, rGet, hc] at h
  | true =>
  cases hv : redisGet s.cache ("user:email:" ++ email) with
  | none =>
    have hdb : getUserByEmailDb s email = (some u, s1) := by
      simpa [getUserByEmail, rGet, hc, hv] using h
    obtain ⟨h1, h2⟩ := getUserByEmailDb_shape s email u s1 hdb
    exact ⟨h1, Or.inr (by rw [h2, hc])⟩
  | some v =>
    cases v with
    | userJson w =>
      simp [getUserByEmail, rGet, hc, hv] at h
      obtain ⟨h1, h2⟩ := h
      exact ⟨by rw [← h2], Or.inl h2.symm⟩
    | str j =>
      by_cases hj : j = ""
      · have hdb : getUserByEmailDb s email = (some u, s1) := by
          simpa [getUserByEmail, rGet, hc, hv, hj] using h
        obtain ⟨h1, h2⟩ := getUserByEmailDb_shape s email u s1 hdb
        exact ⟨h1, Or.inr (by rw [h2, hc])⟩
      · simp [getUserByEmail, rGet, hc, hv, hj] at h

-- Claims C9 and C10

/-- C9 counterexample: a fully reachable trace refuting the claim.  Bob
resends (his unverified record gets cached under his email key), then
verifies with the minted token T1 — the store record is now verified —
then resends again: the handler reads the stale cached copy, reports
that a verification email was sent, and mutates the verified user's
durable verification-token field to the fresh token T2 instead of
returning the already-verified outcome and leaving the fields alone. -/
theorem resend_already_verified_cex :
    (verifyEmail resendTraceS1 "T1").1.isSome = true ∧
    (findUserByEmail resendTraceS2.users "b@b").map User.is_verified
      = some true ∧
    (resendVerification "T2" true resendTraceS2 "b@b").1
      = ApiOutcome.ok "Verification email sent successfully" 200 ∧
    (findUserByEmail (resendVerification "T2" true resendTraceS2
      "b@b").2.users "b@b").map User.verification_token
      = some (some "T2") := by
  decide

/-- C9 amended: whenever the record returned by the handler's cache-first
lookup is verified — in particular whenever the email's lookup cache
entry is absent or coherent with the store — ResendVerification
short-circuits with the already-verified success outcome ("Email already
verified", not an error), issues no token, and leaves the stored users
and every verification cache entry unchanged (the lookup itself may only
add the user-email cache entry).  The claim as stated fails only through
a stale user-email cache entry, as the counterexample's trace shows. -/
theorem resend_already_verified_frame (freshTok : String) (emailOk : Bool)
    (s : St) (email : String) (u : User) (s1 : St)
    (hne : ¬ email = "")
    (hget : getUserByEmail s email = (some u, s1))
    (hv : u.is_verified = true) :
    resendVerification freshTok emailOk s email
      = (.ok "Email already verified" 200, s1) ∧
    s1.users = s.users ∧
    (∀ t, redisGet s1.cache ("verification:" ++ t)
      = redisGet s.cache ("verification:" ++ t)) := by
  obtain ⟨husers, hcase⟩ := getUserByEmail_shape s email u s1 hget
  refine ⟨?_, husers, ?_⟩
  · simp [resendVerification, hne, hget, hv]
  · intro t
    rcases hcase with h1 | h1
    · rw [h1]
    · subst h1
      exact redisGet_set_other _ _ _ _ (verification_key_ne_user_key t email)

/-- Witness for the amended C9: a resend for the verified Alice with a
fresh store lookup short-circuits with the already-verified outcome. -/
theorem resend_already_verified_frame_witness :
    resendVerification "T9" true verifiedFixture "a@b" =
      (ApiOutcome.ok "Email already verified" 200,
       (getUserByEmail verifiedFixture "a@b").2) :=
  (resend_already_verified_frame "T9" true verifiedFixture "a@b" uAlice
    (getUserByEmail verifiedFixture "a@b").2 (by decide) (by decide)
    (by decide)).1

/-- C10: when the verification entry is present but the store update
fails because the mapped user id no longer exists, VerifyEmail returns
the null rejection and the state — the cache entry included — is left
unchanged, so the token remains outstanding; and on any later state where
the entry is still present and the user exists again, VerifyEmail with
the same token succeeds. -/
theorem verifyEmail_update_failure_keeps_token (s : St) (t uid : String)
    (hc : s.cacheUp = true) (hd : s.dbUp = true)
    (hget : redisGet s.cache ("verification:" ++ t) = some (.str uid))
    (hne : ¬ uid = "")
    (hmiss : findUserById s.users uid = none) :
    verifyEmail s t = (none, s) ∧
    (∀ s2 u2, s2.cacheUp = true → s2.dbUp = true →
      redisGet s2.cache ("verification:" ++ t) = some (.str uid) →
      findUserById s2.users uid = some u2 →
      (verifyEmail s2 t).1.isSome = true) := by
  constructor
  · have hupd := updateById_none s.users uid
      (fun x => { x with is_verified := true, verification_token := none })
      hmiss
    simp [verifyEmail, rGet, hc, hget, CVal.asString, hne, dbUpdate, hd, hupd]
  · intro s2 u2 hc2 hd2 hget2 hfind2
    obtain ⟨us', hupd⟩ := updateById_of_find s2.users uid
      (fun x => { x with is_verified := true, verification_token := none })
      u2 hfind2
    simp [verifyEmail, rGet, hc2, hget2, CVal.asString, hne, dbUpdate, hd2,
      hupd, rDel]

/-- Witness for C10 at the concrete ghost fixture: the entry maps to an
id absent from the store. -/
theorem verifyEmail_update_failure_keeps_token_witness :
    verifyEmail ghostFixture "T1" = (none, ghostFixture) :=
  (verifyEmail_update_failure_keeps_token ghostFixture "T1" "ughost"
    (by decide) (by decide) (by decide) (by decide) (by decide)).1

/-- Witness for C4 at the concrete fixture: Carol's verification consumed
exactly once. -/
theorem verifyEmail_at_most_once_witness :
    verifyEmail verifyFixtureAfter "T1" = (none, verifyFixtureAfter) ∧
    uCarolVerified.is_verified = true ∧
    findUserById verifyFixtureAfter.users uCarolVerified.id
      = some uCarolVerified :=
  verifyEmail_at_most_once verifyFixture "T1" uCarolVerified
    verifyFixtureAfter (by decide)
